import Mathlib

/-!
Verification of the core decision pipeline of the Streamlit currency
trading bot: the technical signal engine (`src/backend/signal_processor.py`),
the risk engine (`src/backend/risk_manager.py`) and the resilience
primitives (`src/backend/api_manager.py`).

Floats are modelled as rationals (`ℚ`), `datetime` values as rational
seconds on a global clock, calendar dates as the floor of the epoch-day
quotient, and Python exceptions as explicit error results. Methods that
read the wall clock in the source take the current time `now` as an
explicit argument; methods that mutate `self` return the updated state.
-/

namespace CurrencyBot

/-! ## Time model

`datetime.now()` becomes an explicit `now : ℚ` (seconds); `timestamp.date()`
becomes `tsDate`, the calendar day the instant falls in. -/

/-- The calendar day of an instant (whole days since the epoch). -/
def tsDate (t : ℚ) : ℤ := ⌊t / 86400⌋

/-! ## Data model (`src/backend/models.py`) -/

/-- `SignalType` from `models.py`. -/
inductive SignalType where
  | buy
  | sell
  deriving DecidableEq, Repr

/-- `TradeDirection` from `models.py`. -/
inductive TradeDirection where
  | call
  | put
  deriving DecidableEq, Repr

/-- `MarketData` from `models.py` (one candle). -/
structure MarketData where
  symbol : String
  timestamp : ℚ
  open_price : ℚ
  high_price : ℚ
  low_price : ℚ
  close_price : ℚ
  volume : ℚ
  deriving DecidableEq, Repr, Inhabited

/-- `Signal` from `models.py`. -/
structure Signal where
  symbol : String
  signal_type : SignalType
  confidence : ℚ
  timestamp : ℚ
  rsi_value : ℚ
  sma_value : ℚ
  current_price : ℚ
  deriving DecidableEq, Repr

/-- `TradeResult` from `models.py`; `is_win` is the tri-state
`Optional[bool]` (`none` = not yet settled). -/
structure TradeResult where
  trade_id : String
  symbol : String
  direction : TradeDirection
  amount : ℚ
  entry_price : ℚ
  exit_price : Option ℚ
  profit_loss : Option ℚ
  is_win : Option Bool
  timestamp : ℚ
  deriving DecidableEq, Repr

/-- `Balance` from `models.py`. -/
structure Balance where
  total_balance : ℚ
  available_balance : ℚ
  currency : String
  timestamp : ℚ
  deriving DecidableEq, Repr

/-- `ValidationResult` from `models.py` (`warnings` is always the empty
list on every path the risk engine takes). -/
structure ValidationResult where
  is_valid : Bool
  error_message : Option String := none
  deriving DecidableEq, Repr

/-! ## Circuit breaker (`src/backend/api_manager.py`, lines 25-68) -/

/-- `CircuitBreakerState` from `api_manager.py`. -/
inductive CircuitBreakerState where
  | closed
  | «open»
  | halfOpen
  deriving DecidableEq, Repr

/-- The `CircuitBreaker` dataclass from `api_manager.py`. -/
structure CircuitBreaker where
  failure_threshold : ℕ := 5
  timeout : ℚ := 60
  failure_count : ℕ := 0
  last_failure_time : Option ℚ := none
  state : CircuitBreakerState := .closed
  deriving DecidableEq, Repr

namespace CircuitBreaker

/-- `CircuitBreaker.record_success`: reset the counter and close. -/
def record_success (cb : CircuitBreaker) : CircuitBreaker :=
  { cb with failure_count := 0, state := .closed }

/-- `CircuitBreaker.record_failure` at time `now`: bump the counter,
stamp the failure time, open once the threshold is reached. -/
def record_failure (cb : CircuitBreaker) (now : ℚ) : CircuitBreaker :=
  let cb' := { cb with failure_count := cb.failure_count + 1,
                       last_failure_time := some now }
  if cb'.failure_count ≥ cb'.failure_threshold then
    { cb' with state := .«open» }
  else cb'

/-- `CircuitBreaker.can_execute` at time `now`: returns the decision and
the (possibly promoted to half-open) breaker state. -/
def can_execute (cb : CircuitBreaker) (now : ℚ) : Bool × CircuitBreaker :=
  match cb.state with
  | .closed => (true, cb)
  | .«open» =>
      match cb.last_failure_time with
      | some t =>
          if now - t > cb.timeout then
            (true, { cb with state := .halfOpen })
          else (false, cb)
      | none => (false, cb)
  | .halfOpen => (true, cb)

end CircuitBreaker

/-! ## Rate limiter (`src/backend/api_manager.py`, lines 71-107) -/

/-- The `RateLimiter` dataclass from `api_manager.py`. -/
structure RateLimiter where
  max_requests : ℕ
  time_window : ℚ
  requests : List ℚ := []
  deriving DecidableEq, Repr

namespace RateLimiter

/-- `RateLimiter.can_make_request` at time `now`: prune entries that have
fallen out of the sliding window, then compare the count with the limit.
Returns the decision and the pruned limiter. -/
def can_make_request (rl : RateLimiter) (now : ℚ) : Bool × RateLimiter :=
  let reqs := rl.requests.filter (fun t => now - t < rl.time_window)
  (decide (reqs.length < rl.max_requests), { rl with requests := reqs })

/-- `RateLimiter.record_request` at time `now`. -/
def record_request (rl : RateLimiter) (now : ℚ) : RateLimiter :=
  { rl with requests := rl.requests ++ [now] }

/-- `min(self.requests)` for a nonempty request list. -/
def oldestRequest : List ℚ → ℚ
  | [] => 0
  | t :: ts => ts.foldl min t

/-- `RateLimiter.wait_time` at time `now`: 0 when under the limit (or the
window is empty), else the time until the oldest entry leaves the window,
floored at 0. Returns the duration and the pruned limiter. -/
def wait_time (rl : RateLimiter) (now : ℚ) : ℚ × RateLimiter :=
  let (ok, rl') := rl.can_make_request now
  if ok then (0, rl')
  else if rl'.requests = [] then (0, rl')
  else (max 0 (oldestRequest rl'.requests + rl'.time_window - now), rl')

end RateLimiter

/-! ## Signal engine (`src/backend/signal_processor.py`) -/

/-- `TechnicalIndicators` from `signal_processor.py`. -/
structure TechnicalIndicators where
  rsi : ℚ
  sma : ℚ
  current_price : ℚ
  timestamp : ℚ
  deriving DecidableEq, Repr

/-- The mutable configuration of `SignalProcessor.__init__`. Thresholds
are Python ints (they are only ever assigned int literals or the int
arguments of `update_parameters`); periods likewise. -/
structure SignalProcessor where
  rsi_period : ℤ := 14
  sma_period : ℤ := 20
  rsi_oversold_threshold : ℤ := 30
  rsi_overbought_threshold : ℤ := 70
  rsi_weight : ℚ := 4/10
  sma_weight : ℚ := 3/10
  validation_weight : ℚ := 3/10
  deriving DecidableEq, Repr

namespace SignalProcessor

/-- The consecutive price changes `[prices[i] - prices[i-1] for i in
range(1, len(prices))]`. -/
def deltas (prices : List ℚ) : List ℚ :=
  List.zipWith (fun a b => a - b) prices.tail prices

/-- One step of Wilder smoothing applied to the running (gain, loss)
averages: `avg = (avg*(period-1) + new)/period` componentwise. -/
def wilderStep (period : ℚ) (avg : ℚ × ℚ) (gl : ℚ × ℚ) : ℚ × ℚ :=
  ((avg.1 * (period - 1) + gl.1) / period,
   (avg.2 * (period - 1) + gl.2) / period)

/-- The `gains` list of `calculate_rsi`: each positive delta, 0 for the
rest. -/
def gains (prices : List ℚ) : List ℚ :=
  (deltas prices).map (fun d => if d > 0 then d else 0)

/-- The `losses` list of `calculate_rsi`: the magnitude of each negative
delta, 0 for the rest. -/
def losses (prices : List ℚ) : List ℚ :=
  (deltas prices).map (fun d => if d < 0 then -d else 0)

/-- The (avg_gain, avg_loss) pair of `calculate_rsi`: seeded over the
first `period` deltas, then Wilder smoothing over the remaining ones. -/
def smoothedAvgs (prices : List ℚ) (period : ℤ) : ℚ × ℚ :=
  let p := period.toNat
  (((gains prices).zip (losses prices)).drop p).foldl
    (wilderStep (period : ℚ))
    (((gains prices).take p).sum / period,
     ((losses prices).take p).sum / period)

/-- `SignalProcessor.calculate_rsi`: guard clauses in source order, the
seeded averages over the first `period` deltas, the Wilder smoothing loop
over the remaining deltas, and the division-free branch when the smoothed
average loss is zero. `ValueError` becomes `Except.error`. -/
def calculate_rsi (prices : List ℚ) (period : ℤ) : Except String ℚ :=
  if (prices.length : ℤ) < period + 1 then
    .error "Need more prices for RSI calculation"
  else if period ≤ 0 then
    .error "RSI period must be positive"
  else if prices = [] ∨ prices.any (fun p => p ≤ 0) then
    .error "All prices must be positive"
  else if ((gains prices).length : ℤ) < period then
    .error "Insufficient data for RSI calculation"
  else
    let avgs := smoothedAvgs prices period
    if avgs.2 = 0 then
      .ok 100
    else
      .ok (100 - 100 / (1 + avgs.1 / avgs.2))

/-- `SignalProcessor.calculate_sma`: the arithmetic mean of the most
recent `period` prices, with the source's guard clauses. -/
def calculate_sma (prices : List ℚ) (period : ℤ) : Except String ℚ :=
  if (prices.length : ℤ) < period then
    .error "Need more prices for SMA calculation"
  else if period ≤ 0 then
    .error "SMA period must be positive"
  else if prices = [] ∨ prices.any (fun p => p ≤ 0) then
    .error "All prices must be positive"
  else
    let recent := prices.drop (prices.length - period.toNat)
    .ok (recent.sum / period)

/-- `SignalProcessor.calculate_technical_indicators`: requires a nonempty
candle list of at least `max(rsi_period + 1, sma_period)` entries, then
computes both indicators over the closing prices; the current price is
the last close and the timestamp the last candle's. -/
def calculate_technical_indicators (sp : SignalProcessor)
    (market_data : List MarketData) : Except String TechnicalIndicators :=
  if market_data = [] then
    .error "Market data cannot be empty"
  else
    let prices := market_data.map (·.close_price)
    let min_required := max (sp.rsi_period + 1) sp.sma_period
    if (prices.length : ℤ) < min_required then
      .error "Need more data points"
    else do
      let rsi ← calculate_rsi prices sp.rsi_period
      let sma ← calculate_sma prices sp.sma_period
      .ok { rsi := rsi, sma := sma,
            current_price := prices.getLastD 0,
            timestamp := (market_data.getLastD default).timestamp }

/-- `SignalProcessor.calculate_signal_confidence`: the weighted sum of the
RSI component, the SMA-divergence component and the neutral validation
term, clamped to [0,1]. The source wraps the body in `try/except` and
returns the default 0.5 on any exception; the only possible exceptions
are the three `ZeroDivisionError` sites (oversold threshold 0 on the buy
branch, overbought threshold 100 on the sell branch, SMA 0), collapsed
here into one guard. -/
def calculate_signal_confidence (sp : SignalProcessor)
    (ind : TechnicalIndicators) (st : SignalType) : ℚ :=
  if (st = .buy ∧ sp.rsi_oversold_threshold = 0) ∨
     (st = .sell ∧ sp.rsi_overbought_threshold = 100) ∨
     ind.sma = 0 then
    1/2
  else
    let rsi_confidence :=
      match st with
      | .buy => ((sp.rsi_oversold_threshold : ℚ) - ind.rsi) /
          (sp.rsi_oversold_threshold : ℚ)
      | .sell => (ind.rsi - (sp.rsi_overbought_threshold : ℚ)) /
          (100 - (sp.rsi_overbought_threshold : ℚ))
    let rsi_confidence := max 0 (min 1 rsi_confidence)
    let price_sma_percent := |ind.current_price - ind.sma| / ind.sma
    let sma_confidence := min 1 (price_sma_percent / (1/100))
    let total := rsi_confidence * sp.rsi_weight +
      sma_confidence * sp.sma_weight + 1/2 * sp.validation_weight
    max 0 (min 1 total)

/-- `SignalProcessor.generate_signal`: `None` when the candle list is
empty or the indicators cannot be computed (the source catches the
`ValueError` and returns `None`); Buy when `rsi < oversold ∧ price > sma`,
Sell when `rsi > overbought ∧ price < sma`, else `None`. -/
def generate_signal (sp : SignalProcessor) (market_data : List MarketData) :
    Option Signal :=
  if market_data = [] then none
  else
    match sp.calculate_technical_indicators market_data with
    | .error _ => none
    | .ok ind =>
        let symbol := (market_data.getLastD default).symbol
        if ind.rsi < (sp.rsi_oversold_threshold : ℚ) ∧
           ind.current_price > ind.sma then
          some { symbol := symbol, signal_type := .buy,
                 confidence := sp.calculate_signal_confidence ind .buy,
                 timestamp := ind.timestamp, rsi_value := ind.rsi,
                 sma_value := ind.sma, current_price := ind.current_price }
        else if ind.rsi > (sp.rsi_overbought_threshold : ℚ) ∧
           ind.current_price < ind.sma then
          some { symbol := symbol, signal_type := .sell,
                 confidence := sp.calculate_signal_confidence ind .sell,
                 timestamp := ind.timestamp, rsi_value := ind.rsi,
                 sma_value := ind.sma, current_price := ind.current_price }
        else none

/-- `SignalProcessor.validate_signal_with_alpha_vantage`: the awaited
outcome of `api_manager.validate_signal` is passed in as `outcome`
(`some b` = the call returned `b`, `none` = the call raised, landing in
the `except` branch). Returns the updated confidence. -/
def validate_signal_with_alpha_vantage (signal : Signal)
    (outcome : Option Bool) : ℚ :=
  match outcome with
  | some true => min 1 (signal.confidence + 2/10)
  | some false => max 0 (signal.confidence - 3/10)
  | none => signal.confidence

/-- The final check of `SignalProcessor.update_parameters`: after all
provided fields have been applied, reject when the oversold threshold is
not strictly below the overbought threshold. The state reached so far is
returned alongside the error: in the source the fields were assigned on
`self` before the `raise`, so they stay changed. -/
def update_parameters_check (sp : SignalProcessor) :
    Option String × SignalProcessor :=
  if sp.rsi_oversold_threshold ≥ sp.rsi_overbought_threshold then
    (some "RSI oversold threshold must be less than overbought threshold", sp)
  else (none, sp)

/-- Step 4 of `update_parameters`: validate and apply `rsi_overbought`,
then run the final relationship check. -/
def update_parameters_overbought (sp : SignalProcessor)
    (rsi_overbought : Option ℤ) : Option String × SignalProcessor :=
  match rsi_overbought with
  | none => update_parameters_check sp
  | some v =>
      if ¬(0 ≤ v ∧ v ≤ 100) then
        (some "RSI overbought threshold must be between 0 and 100", sp)
      else update_parameters_check { sp with rsi_overbought_threshold := v }

/-- Step 3 of `update_parameters`: validate and apply `rsi_oversold`. -/
def update_parameters_oversold (sp : SignalProcessor)
    (rsi_oversold rsi_overbought : Option ℤ) :
    Option String × SignalProcessor :=
  match rsi_oversold with
  | none => update_parameters_overbought sp rsi_overbought
  | some v =>
      if ¬(0 ≤ v ∧ v ≤ 100) then
        (some "RSI oversold threshold must be between 0 and 100", sp)
      else
        update_parameters_overbought { sp with rsi_oversold_threshold := v }
          rsi_overbought

/-- Step 2 of `update_parameters`: validate and apply `sma_period`. -/
def update_parameters_sma (sp : SignalProcessor)
    (sma_period rsi_oversold rsi_overbought : Option ℤ) :
    Option String × SignalProcessor :=
  match sma_period with
  | none => update_parameters_oversold sp rsi_oversold rsi_overbought
  | some v =>
      if v ≤ 0 then (some "SMA period must be positive", sp)
      else
        update_parameters_oversold { sp with sma_period := v }
          rsi_oversold rsi_overbought

/-- `SignalProcessor.update_parameters`: each provided field is validated
and assigned in source order (`rsi_period`, `sma_period`, `rsi_oversold`,
`rsi_overbought`), and the oversold < overbought relationship is checked
last. A raised `ValueError` becomes `some message` in the first
component; the second component is the processor state when the call
returns or raises — assignments made before the failing check persist,
exactly as the source's in-place mutation of `self` does. -/
def update_parameters (sp : SignalProcessor)
    (rsi_period sma_period rsi_oversold rsi_overbought : Option ℤ) :
    Option String × SignalProcessor :=
  match rsi_period with
  | none => update_parameters_sma sp sma_period rsi_oversold rsi_overbought
  | some v =>
      if v ≤ 0 then (some "RSI period must be positive", sp)
      else
        update_parameters_sma { sp with rsi_period := v }
          sma_period rsi_oversold rsi_overbought

end SignalProcessor

/-! ## Risk engine (`src/backend/risk_manager.py`) -/

/-- Python's `round()` on a scaled value: round to the nearest integer,
ties to the even neighbour. -/
def roundHalfEven (x : ℚ) : ℤ :=
  let n := ⌊x⌋
  let f := x - n
  if f < 1/2 then n
  else if f > 1/2 then n + 1
  else if n % 2 = 0 then n else n + 1

/-- `TradingConfig` from `config.py` (the fields the risk engine reads). -/
structure TradingConfig where
  default_trade_amount : ℚ
  max_daily_loss_percent : ℚ
  max_trade_percent : ℚ
  consecutive_loss_limit : ℕ
  demo_mode : Bool
  deriving DecidableEq, Repr

/-- The `RiskMetrics` dataclass from `risk_manager.py`. -/
structure RiskMetrics where
  daily_loss : ℚ
  daily_loss_percent : ℚ
  consecutive_losses : ℕ
  trades_today : ℕ
  last_loss_time : Option ℚ
  is_paused : Bool
  pause_reason : Option String
  deriving DecidableEq, Repr

/-- The mutable state of `RiskManager.__init__`. -/
structure RiskManager where
  config : TradingConfig
  trade_history : List TradeResult := []
  daily_start_balance : Option ℚ := none
  is_paused : Bool := false
  pause_reason : Option String := none
  pause_until : Option ℚ := none
  deriving DecidableEq, Repr

namespace RiskManager

/-- The backward walk of `RiskManager._count_consecutive_losses` over the
reversed history: `is_win is False` increments, `is_win is True` stops,
`is_win is None` (unsettled) is skipped. -/
def countLossesBack : List TradeResult → ℕ
  | [] => 0
  | t :: ts =>
      match t.is_win with
      | some false => countLossesBack ts + 1
      | some true => 0
      | none => countLossesBack ts

/-- `RiskManager._count_consecutive_losses`: walk the history from the
most recent trade backward. -/
def count_consecutive_losses (rm : RiskManager) : ℕ :=
  countLossesBack rm.trade_history.reverse

/-- `RiskManager._pause_trading` at time `now` (default duration 60
minutes). -/
def pause_trading (rm : RiskManager) (reason : String) (now : ℚ)
    (duration_minutes : ℚ := 60) : RiskManager :=
  { rm with is_paused := true, pause_reason := some reason,
            pause_until := some (now + duration_minutes * 60) }

/-- `RiskManager.record_trade_result` at time `now`: append, prune the
history to trades of the current calendar day, recompute the streak and
pause (via `should_pause_trading`, whose guard is the same comparison)
when it reaches the configured limit. -/
def record_trade_result (rm : RiskManager) (trade_result : TradeResult)
    (now : ℚ) : RiskManager :=
  let hist := (rm.trade_history ++ [trade_result]).filter
    (fun t => tsDate t.timestamp = tsDate now)
  let rm' := { rm with trade_history := hist }
  let consecutive_losses := rm'.count_consecutive_losses
  if consecutive_losses ≥ rm'.config.consecutive_loss_limit then
    rm'.pause_trading
      (s!"Consecutive loss limit reached: {consecutive_losses} losses") now
  else rm'

/-- `RiskManager.get_risk_metrics`: a read that only lazily initializes
`daily_start_balance`; returns the metrics and the (possibly updated)
manager. `last_loss_time` is the timestamp of the most recent trade whose
`is_win` is falsy in Python (`False` or `None`). -/
def get_risk_metrics (rm : RiskManager) (current_balance : ℚ) :
    RiskMetrics × RiskManager :=
  let dsb := rm.daily_start_balance.getD current_balance
  let rm' := { rm with daily_start_balance := some dsb }
  let daily_loss := max 0 (dsb - current_balance)
  let daily_loss_percent := if dsb > 0 then daily_loss / dsb * 100 else 0
  let last_loss_time :=
    (rm.trade_history.reverse.find? (fun t => t.is_win ≠ some true)).map
      (·.timestamp)
  ({ daily_loss := daily_loss,
     daily_loss_percent := daily_loss_percent,
     consecutive_losses := rm.count_consecutive_losses,
     trades_today := rm.trade_history.length,
     last_loss_time := last_loss_time,
     is_paused := rm.is_paused,
     pause_reason := rm.pause_reason }, rm')

/-- `RiskManager.calculate_position_size`: cap the requested risk percent
at `max_trade_percent` (defaulting to it when absent), clamp the raw size
between the 1.0 floor and the `max_trade_percent` cap, and round to two
decimal places half-to-even (Python's `round`). -/
def calculate_position_size (rm : RiskManager) (balance : ℚ)
    (risk_percent : Option ℚ := none) : ℚ :=
  let rp := risk_percent.getD rm.config.max_trade_percent
  let rp := min rp rm.config.max_trade_percent
  let position_size := balance * (rp / 100)
  let min_trade : ℚ := 1
  let max_trade := balance * (rm.config.max_trade_percent / 100)
  let position_size := max min_trade (min position_size max_trade)
  (roundHalfEven (position_size * 100) : ℚ) / 100

end RiskManager

/-! ## Theorems -/

/-- Every delta of a strictly increasing price series is positive. -/
lemma deltas_pos : ∀ (prices : List ℚ), prices.Chain' (· < ·) →
    ∀ d ∈ SignalProcessor.deltas prices, 0 < d := by
  intro prices
  induction prices with
  | nil => simp [SignalProcessor.deltas]
  | cons a rest ih =>
      cases rest with
      | nil => simp [SignalProcessor.deltas]
      | cons b post =>
          intro h d hd
          have hstep : SignalProcessor.deltas (a :: b :: post) =
              (b - a) :: SignalProcessor.deltas (b :: post) := rfl
          rw [hstep] at hd
          rcases List.mem_cons.mp hd with rfl | hd'
          · have hab : a < b := (List.chain'_cons.mp h).1
            linarith
          · exact ih (List.chain'_cons.mp h).2 d hd'

/-- The Wilder smoothing loop keeps a zero loss average at zero when
every remaining loss entry is zero. -/
lemma wilder_foldl_loss_zero (q : ℚ) :
    ∀ (l : List (ℚ × ℚ)), (∀ x ∈ l, x.2 = 0) →
    ∀ init : ℚ × ℚ, init.2 = 0 →
    (l.foldl (SignalProcessor.wilderStep q) init).2 = 0 := by
  intro l
  induction l with
  | nil => intro _ init h0; exact h0
  | cons x xs ih =>
      intro h init h0
      rw [List.foldl_cons]
      refine ih (fun y hy => h y (List.mem_cons_of_mem x hy)) _ ?_
      have hx : x.2 = 0 := h x (List.mem_cons_self x xs)
      simp [SignalProcessor.wilderStep, h0, hx]

/-- For a strictly increasing price series every entry of `losses` is
zero. -/
lemma losses_all_zero (prices : List ℚ) (hmono : prices.Chain' (· < ·)) :
    ∀ x ∈ SignalProcessor.losses prices, x = 0 := by
  intro x hx
  rcases List.mem_map.mp hx with ⟨d, hd, rfl⟩
  have := deltas_pos prices hmono d hd
  simp [not_lt.mpr (le_of_lt this)]

/-- C2: for prices of length at least `period + 1` with a positive
period, all prices positive and strictly increasing, `calculate_rsi`
returns exactly 100 (the smoothed average loss is zero, so the
division-free branch is taken). -/
theorem calculate_rsi_strictly_increasing (prices : List ℚ) (period : ℤ)
    (hp : 0 < period) (hlen : period + 1 ≤ (prices.length : ℤ))
    (hpos : ∀ p ∈ prices, 0 < p) (hmono : prices.Chain' (· < ·)) :
    SignalProcessor.calculate_rsi prices period = .ok 100 := by
  have hzero : (SignalProcessor.smoothedAvgs prices period).2 = 0 := by
    refine wilder_foldl_loss_zero (period : ℚ) _ ?_ _ ?_
    · intro x hx
      have hx' := List.mem_of_mem_drop hx
      exact losses_all_zero prices hmono x.2 (List.of_mem_zip hx').2
    · have : ((SignalProcessor.losses prices).take period.toNat).sum = 0 :=
        List.sum_eq_zero (fun x hx =>
          losses_all_zero prices hmono x (List.mem_of_mem_take hx))
      simp [this]
  have hne : prices ≠ [] := by
    intro h
    rw [h] at hlen
    simp at hlen
    omega
  have hanypos : ¬(prices = [] ∨ prices.any (fun p => decide (p ≤ 0))) := by
    rintro (h | h)
    · exact hne h
    · rcases List.any_eq_true.mp h with ⟨p, hp', hle⟩
      exact absurd (hpos p hp') (not_lt.mpr (by simpa using hle))
  have hglen : ¬(((SignalProcessor.gains prices).length : ℤ) < period) := by
    have : (SignalProcessor.gains prices).length = prices.length - 1 := by
      simp [SignalProcessor.gains, SignalProcessor.deltas]
    rw [this]
    have hplen : (1 : ℤ) ≤ (prices.length : ℤ) := by omega
    push_cast [Nat.cast_sub (by exact_mod_cast hplen)]
    omega
  rw [SignalProcessor.calculate_rsi, if_neg (by omega),
    if_neg (not_le.mpr hp), if_neg hanypos, if_neg hglen]
  simp [hzero]

/-- C2 witness: three strictly increasing prices at period 2. -/
theorem calculate_rsi_strictly_increasing_witness :
    SignalProcessor.calculate_rsi [1, 2, 3] 2 = .ok 100 :=
  calculate_rsi_strictly_increasing [1, 2, 3] 2 (by norm_num) (by norm_num)
    (by norm_num) (by norm_num [List.chain'_cons])

/-- `oldestRequest` of a nonempty window is one of its entries. -/
lemma oldestRequest_mem : ∀ (l : List ℚ), l ≠ [] →
    RateLimiter.oldestRequest l ∈ l := by
  intro l hl
  match l with
  | t :: ts =>
    clear hl
    show ts.foldl min t ∈ t :: ts
    suffices h : ∀ (ts : List ℚ) (a : ℚ),
        ts.foldl min a = a ∨ ts.foldl min a ∈ ts by
      rcases h ts t with h' | h'
      · rw [h']; exact List.mem_cons_self t ts
      · exact List.mem_cons_of_mem t h'
    intro ts
    induction ts with
    | nil => intro a; exact Or.inl rfl
    | cons b bs ih =>
        intro a
        rcases ih (min a b) with h' | h'
        · rcases min_choice a b with hm | hm
          · exact Or.inl (by rw [List.foldl_cons, h', hm])
          · exact Or.inr (by rw [List.foldl_cons, h', hm]; exact
              List.mem_cons_self b bs)
        · exact Or.inr (List.mem_cons_of_mem b h')

/-- `oldestRequest` bounds every entry of the window from below. -/
lemma oldestRequest_le : ∀ (l : List ℚ), ∀ t ∈ l,
    RateLimiter.oldestRequest l ≤ t := by
  intro l
  match l with
  | [] => intro t ht; cases ht
  | a :: ts =>
    suffices h : ∀ (ts : List ℚ) (a : ℚ), ts.foldl min a ≤ a ∧
        ∀ t ∈ ts, ts.foldl min a ≤ t by
      intro t ht
      rcases List.mem_cons.mp ht with rfl | ht'
      · exact (h ts t).1
      · exact (h ts a).2 t ht'
    intro ts
    induction ts with
    | nil => intro a; exact ⟨le_refl a, by intro t ht; cases ht⟩
    | cons b bs ih =>
        intro a
        refine ⟨le_trans (ih (min a b)).1 (min_le_left a b), ?_⟩
        intro t ht
        rcases List.mem_cons.mp ht with rfl | ht'
        · exact le_trans (ih (min a t)).1 (min_le_right a t)
        · exact (ih (min a b)).2 t ht'

/-- Filtering out a present element makes the list strictly shorter. -/
lemma length_filter_lt_of_mem {l : List ℚ} {p : ℚ → Bool} {a : ℚ}
    (ha : a ∈ l) (hpa : p a = false) :
    (l.filter p).length < l.length := by
  have h1 : (l.filter p).length ≤ l.length := l.length_filter_le p
  rcases lt_or_eq_of_le h1 with h | h
  · exact h
  · exfalso
    have heq : l.filter p = l :=
      (List.Sublist.length_eq (List.filter_sublist l)).mp h
    have := List.filter_eq_self.mp heq a ha
    simp [hpa] at this

/-- C5: with a positive request limit, an empty window always permits; a
window holding exactly `max_requests` timestamps that are all still
inside the sliding window blocks, and the wait time is
`oldest + time_window - now`, floored at 0 and strictly positive while
blocked; every check prunes the timestamps that have left the window; and
once the oldest timestamp of a full-or-less window has expired, the next
check permits again. -/
theorem rate_limiter_sliding_window (rl : RateLimiter) (now : ℚ)
    (hmax : 0 < rl.max_requests) :
    (rl.requests = [] → (rl.can_make_request now).1 = true) ∧
    (rl.requests.length = rl.max_requests →
      (∀ t ∈ rl.requests, now - t < rl.time_window) →
      (rl.can_make_request now).1 = false ∧
      (rl.wait_time now).1 =
        max 0 (RateLimiter.oldestRequest rl.requests + rl.time_window - now) ∧
      0 < (rl.wait_time now).1) ∧
    ((rl.can_make_request now).2.requests =
      rl.requests.filter (fun t => decide (now - t < rl.time_window))) ∧
    (rl.requests ≠ [] → rl.requests.length ≤ rl.max_requests →
      rl.time_window ≤ now - RateLimiter.oldestRequest rl.requests →
      (rl.can_make_request now).1 = true) := by
  refine ⟨?_, ?_, rfl, ?_⟩
  · intro h
    simp [RateLimiter.can_make_request, h, hmax]
  · intro hlen hin
    have hfull : rl.requests.filter
        (fun t => decide (now - t < rl.time_window)) = rl.requests :=
      List.filter_eq_self.mpr (fun a ha => by
        simpa using hin a ha)
    have hne : rl.requests ≠ [] := by
      intro h
      rw [h] at hlen
      simp at hlen
      omega
    have hblock : (rl.can_make_request now).1 = false := by
      simp [RateLimiter.can_make_request, hfull, hlen]
    have hpos : 0 < RateLimiter.oldestRequest rl.requests +
        rl.time_window - now := by
      have := hin _ (oldestRequest_mem rl.requests hne)
      linarith
    refine ⟨hblock, ?_, ?_⟩
    · simp [RateLimiter.wait_time, RateLimiter.can_make_request, hfull,
        hlen, hne]
    · simp only [RateLimiter.wait_time, RateLimiter.can_make_request, hfull]
      simp [hlen, hne, lt_max_iff]
      linarith
  · intro hne hlen hexp
    have hdrop : (decide (now - RateLimiter.oldestRequest rl.requests <
        rl.time_window)) = false := by
      simp only [decide_eq_false_iff_not, not_lt]
      linarith
    have hlt : (rl.requests.filter
        (fun t => decide (now - t < rl.time_window))).length <
        rl.requests.length :=
      length_filter_lt_of_mem (oldestRequest_mem rl.requests hne) hdrop
    simp only [RateLimiter.can_make_request, decide_eq_true_eq]
    omega

/-- A concrete limiter for the C5 witness: limit 2, 60-second window,
two recorded timestamps. -/
def fullLimiter : RateLimiter :=
  { max_requests := 2, time_window := 60, requests := [0, 10] }

/-- C5 witness: the full limiter checked at time 20 (blocked) and at
time 70, after the window has elapsed past both timestamps (permitted
again). -/
theorem rate_limiter_sliding_window_witness :
    (fullLimiter.requests = [] →
      (fullLimiter.can_make_request 20).1 = true) ∧
    (fullLimiter.requests.length = fullLimiter.max_requests →
      (∀ t ∈ fullLimiter.requests,
        (20 : ℚ) - t < fullLimiter.time_window) →
      (fullLimiter.can_make_request 20).1 = false ∧
      (fullLimiter.wait_time 20).1 =
        max 0 (RateLimiter.oldestRequest fullLimiter.requests +
          fullLimiter.time_window - 20) ∧
      0 < (fullLimiter.wait_time 20).1) ∧
    ((fullLimiter.can_make_request 20).2.requests =
      fullLimiter.requests.filter
        (fun t => decide ((20 : ℚ) - t < fullLimiter.time_window))) ∧
    (fullLimiter.requests ≠ [] →
      fullLimiter.requests.length ≤ fullLimiter.max_requests →
      fullLimiter.time_window ≤
        (70 : ℚ) - RateLimiter.oldestRequest fullLimiter.requests →
      (fullLimiter.can_make_request 70).1 = true) := by
  have h20 := rate_limiter_sliding_window fullLimiter 20 (by norm_num [fullLimiter])
  have h70 := rate_limiter_sliding_window fullLimiter 70 (by norm_num [fullLimiter])
  exact ⟨h20.1, h20.2.1, h20.2.2.1, h70.2.2.2⟩

/-- C6: external validation adjusts confidence by +0.2 capped at 1.0 when
the call reports valid, by -0.3 floored at 0.0 when it reports invalid,
and leaves the confidence unchanged when the validation call itself
fails. -/
theorem validate_signal_confidence_adjustment (s : Signal) :
    SignalProcessor.validate_signal_with_alpha_vantage s (some true) =
      min 1 (s.confidence + 2/10) ∧
    SignalProcessor.validate_signal_with_alpha_vantage s (some false) =
      max 0 (s.confidence - 3/10) ∧
    SignalProcessor.validate_signal_with_alpha_vantage s none =
      s.confidence := by
  refine ⟨rfl, rfl, rfl⟩

/-- C3: `calculate_position_size` caps the risk percent at
`max_trade_percent` (defaulting to it when absent) and returns
`clamp(balance*riskPercent/100, 1.0, balance*maxTradePercent/100)`
rounded to two decimals; any nonpositive balance yields the floor 1.0,
and with `max_trade_percent = 2` the three cited calls return 20, 20
and 1. -/
theorem calculate_position_size_spec (rm : RiskManager) (balance : ℚ)
    (risk_percent : Option ℚ) :
    rm.calculate_position_size balance risk_percent =
      (roundHalfEven (max 1 (min (balance *
          min (risk_percent.getD rm.config.max_trade_percent)
            rm.config.max_trade_percent / 100)
        (balance * rm.config.max_trade_percent / 100)) * 100) : ℚ) / 100 ∧
    (0 ≤ rm.config.max_trade_percent → balance ≤ 0 →
      rm.calculate_position_size balance risk_percent = 1) ∧
    (rm.config.max_trade_percent = 2 →
      rm.calculate_position_size 1000 none = 20 ∧
      rm.calculate_position_size 1000 (some 5) = 20 ∧
      rm.calculate_position_size 0 none = 1) := by
  refine ⟨by simp [RiskManager.calculate_position_size, mul_div_assoc], ?_, ?_⟩
  · intro hmt hb
    have hcap : min (risk_percent.getD rm.config.max_trade_percent)
        rm.config.max_trade_percent ≤ rm.config.max_trade_percent :=
      min_le_right _ _
    have hmaxt : balance * (rm.config.max_trade_percent / 100) ≤ 0 :=
      mul_nonpos_of_nonpos_of_nonneg hb (by positivity)
    have hmin : min (balance * (min (risk_percent.getD
        rm.config.max_trade_percent) rm.config.max_trade_percent / 100))
        (balance * (rm.config.max_trade_percent / 100)) ≤ 0 :=
      le_trans (min_le_right _ _) hmaxt
    have h1 : max (1 : ℚ) (min (balance * (min (risk_percent.getD
        rm.config.max_trade_percent) rm.config.max_trade_percent / 100))
        (balance * (rm.config.max_trade_percent / 100))) = 1 :=
      max_eq_left (le_trans hmin (by norm_num))
    simp only [RiskManager.calculate_position_size, h1]
    norm_num [roundHalfEven]
  · intro hmt
    refine ⟨?_, ?_, ?_⟩ <;>
      simp [RiskManager.calculate_position_size, hmt] <;>
      norm_num [roundHalfEven, Int.floor_eq_iff]

/-- A risk manager with the cited configuration (`max_trade_percent = 2`,
`max_daily_loss_percent = 5`, `consecutive_loss_limit = 3`, demo mode). -/
def demoManager : RiskManager :=
  { config := { default_trade_amount := 1, max_daily_loss_percent := 5,
                max_trade_percent := 2, consecutive_loss_limit := 3,
                demo_mode := true } }

/-- C3 witness: the three cited calls at `max_trade_percent = 2`. -/
theorem calculate_position_size_spec_witness :
    demoManager.calculate_position_size 1000 none = 20 ∧
    demoManager.calculate_position_size 1000 (some 5) = 20 ∧
    demoManager.calculate_position_size 0 none = 1 :=
  (calculate_position_size_spec demoManager 0 none).2.2 rfl

/-- C1 (counterexample): updating only `rsi_oversold` to 80 on a
default-configured processor (thresholds 30/70) raises the ordering
rejection, yet the oversold threshold has already been changed from 30
to 80 — the rejected update did not leave the configuration intact. -/
theorem update_parameters_not_atomic_cex :
    (SignalProcessor.update_parameters {} none none (some 80) none).1 =
      some "RSI oversold threshold must be less than overbought threshold" ∧
    (SignalProcessor.update_parameters {} none none
        (some 80) none).2.rsi_oversold_threshold = 80 ∧
    ({} : SignalProcessor).rsi_oversold_threshold = 30 := by
  refine ⟨rfl, rfl, rfl⟩

/-- C1 (amended): `update_parameters` applies each provided field as soon
as that field's own validation passes and only then checks the threshold
ordering, so a rejected update can leave earlier fields changed: updating
only `rsi_oversold` to an in-range value `v` at or above the overbought
threshold returns the ordering rejection together with a state whose
oversold threshold is already `v`. -/
theorem update_parameters_applies_before_reject (sp : SignalProcessor)
    (v : ℤ) :
    sp.update_parameters none none (some v) none =
      if ¬(0 ≤ v ∧ v ≤ 100) then
        (some "RSI oversold threshold must be between 0 and 100", sp)
      else if sp.rsi_overbought_threshold ≤ v then
        (some "RSI oversold threshold must be less than overbought threshold",
          { sp with rsi_oversold_threshold := v })
      else (none, { sp with rsi_oversold_threshold := v }) := by
  by_cases h : 0 ≤ v ∧ v ≤ 100 <;>
    simp [SignalProcessor.update_parameters,
      SignalProcessor.update_parameters_sma,
      SignalProcessor.update_parameters_oversold,
      SignalProcessor.update_parameters_overbought,
      SignalProcessor.update_parameters_check, ge_iff_le, h]

/-- C4: with `failure_threshold = 1`, one recorded failure at time `t`
opens the breaker and stamps `last_failure_time = t`; while no more than
`timeout` seconds have passed, `can_execute` denies and leaves the state
unchanged; once strictly more than `timeout` seconds have passed it
permits and promotes the breaker to half-open, after which a recorded
success closes it with the failure counter reset to 0. -/
theorem circuit_breaker_trip_and_recover (cb : CircuitBreaker)
    (t now1 now2 : ℚ) (hth : cb.failure_threshold = 1)
    (_hst : cb.state = .closed) :
    (cb.record_failure t).state = .«open» ∧
    (cb.record_failure t).last_failure_time = some t ∧
    (now1 - t ≤ cb.timeout →
      (cb.record_failure t).can_execute now1 = (false, cb.record_failure t)) ∧
    (cb.timeout < now2 - t →
      ((cb.record_failure t).can_execute now2).1 = true ∧
      ((cb.record_failure t).can_execute now2).2.state = .halfOpen ∧
      (((cb.record_failure t).can_execute now2).2.record_success).state =
        .closed ∧
      (((cb.record_failure t).can_execute now2).2.record_success).failure_count
        = 0) := by
  have hopen : cb.record_failure t =
      { cb with failure_count := cb.failure_count + 1,
                last_failure_time := some t, state := .«open» } := by
    simp [CircuitBreaker.record_failure, hth]
  refine ⟨by rw [hopen], by rw [hopen], ?_, ?_⟩
  · intro hle
    rw [hopen]
    simp [CircuitBreaker.can_execute, not_lt.mpr hle]
  · intro hgt
    rw [hopen]
    simp [CircuitBreaker.can_execute, CircuitBreaker.record_success, hgt]

/-- C7: `generate_signal` yields a Buy signal exactly when the indicators
compute and `rsi < oversold ∧ price > sma`, a Sell signal exactly when
they compute and `rsi > overbought ∧ price < sma`, returns `None` in
every remaining case, and in particular returns `None` (without raising)
whenever the input is empty or shorter than
`max(rsi_period + 1, sma_period)`. -/
theorem generate_signal_rule (sp : SignalProcessor) (md : List MarketData) :
    (∀ e, sp.calculate_technical_indicators md = .error e →
      sp.generate_signal md = none) ∧
    ((∃ s, sp.generate_signal md = some s ∧ s.signal_type = .buy) ↔
      (∃ ind, sp.calculate_technical_indicators md = .ok ind ∧
        ind.rsi < (sp.rsi_oversold_threshold : ℚ) ∧
        ind.current_price > ind.sma)) ∧
    ((∃ s, sp.generate_signal md = some s ∧ s.signal_type = .sell) ↔
      (∃ ind, sp.calculate_technical_indicators md = .ok ind ∧
        ind.rsi > (sp.rsi_overbought_threshold : ℚ) ∧
        ind.current_price < ind.sma)) ∧
    (sp.generate_signal md = none ↔
      ¬(∃ ind, sp.calculate_technical_indicators md = .ok ind ∧
        ind.rsi < (sp.rsi_oversold_threshold : ℚ) ∧
        ind.current_price > ind.sma) ∧
      ¬(∃ ind, sp.calculate_technical_indicators md = .ok ind ∧
        ind.rsi > (sp.rsi_overbought_threshold : ℚ) ∧
        ind.current_price < ind.sma)) ∧
    (md = [] ∨ (md.length : ℤ) < max (sp.rsi_period + 1) sp.sma_period →
      sp.generate_signal md = none) := by
  by_cases hmd : md = []
  · subst hmd
    refine ⟨fun e _ => rfl, ?_, ?_, ?_, fun _ => rfl⟩ <;>
      simp [SignalProcessor.generate_signal,
        SignalProcessor.calculate_technical_indicators]
  · have hshort : (md.length : ℤ) < max (sp.rsi_period + 1) sp.sma_period →
        sp.calculate_technical_indicators md = .error "Need more data points" := by
      intro hc
      rw [SignalProcessor.calculate_technical_indicators, if_neg hmd]
      rw [if_pos (by simpa using hc)]
    cases h : sp.calculate_technical_indicators md with
    | error e =>
        have hnone : sp.generate_signal md = none := by
          simp [SignalProcessor.generate_signal, hmd, h]
        refine ⟨fun _ _ => hnone, ?_, ?_, ?_, fun _ => hnone⟩ <;>
          simp [hnone, h]
    | ok ind =>
        have hlong : ¬(md = [] ∨
            (md.length : ℤ) < max (sp.rsi_period + 1) sp.sma_period) := by
          rintro (hc | hc)
          · exact hmd hc
          · rw [hshort hc] at h
            cases h
        by_cases hbuy : ind.rsi < (sp.rsi_oversold_threshold : ℚ) ∧
            ind.current_price > ind.sma
        · have hnsell : ¬(ind.rsi > (sp.rsi_overbought_threshold : ℚ) ∧
              ind.current_price < ind.sma) :=
            fun hc => absurd hbuy.2 (not_lt.mpr (le_of_lt hc.2))
          refine ⟨?_, ?_, ?_, ?_, fun hc => absurd hc hlong⟩ <;>
            simp [SignalProcessor.generate_signal, hmd, h, hbuy, hnsell]
        · by_cases hsell : ind.rsi > (sp.rsi_overbought_threshold : ℚ) ∧
              ind.current_price < ind.sma
          · refine ⟨?_, ?_, ?_, ?_, fun hc => absurd hc hlong⟩ <;>
              simp [SignalProcessor.generate_signal, hmd, h, hbuy, hsell]
          · refine ⟨?_, ?_, ?_, ?_, fun hc => absurd hc hlong⟩ <;>
              simp [SignalProcessor.generate_signal, hmd, h, hbuy, hsell]

/-- C9: `get_risk_metrics` is idempotent — calling it again on the state
it returned, with the same balance, yields the same metrics and the same
state (its only mutation is the lazy initialization of
`daily_start_balance`). -/
theorem get_risk_metrics_idempotent (rm : RiskManager) (b : ℚ) :
    (rm.get_risk_metrics b).2.get_risk_metrics b = rm.get_risk_metrics b := by
  cases h : rm.daily_start_balance <;>
    simp [RiskManager.get_risk_metrics, RiskManager.count_consecutive_losses, h]

/-- `countLossesBack` ignores unsettled entries anywhere in the walk. -/
lemma countLossesBack_skip_unsettled (u : TradeResult)
    (hu : u.is_win = none) :
    ∀ (xs ys : List TradeResult),
      RiskManager.countLossesBack (xs ++ u :: ys) =
        RiskManager.countLossesBack (xs ++ ys) := by
  intro xs
  induction xs with
  | nil =>
      intro ys
      simp [RiskManager.countLossesBack, hu]
  | cons x xs ih =>
      intro ys
      simp only [List.cons_append, RiskManager.countLossesBack]
      cases x.is_win with
      | none => exact ih ys
      | some b => cases b <;> simp [ih ys]

/-- C10: a trade whose outcome is unsettled (`is_win = none`) neither
increments nor resets the consecutive-loss streak: removing it from the
history leaves the streak unchanged; a settled loss at the most recent
position increments the streak and a settled win resets it to 0. -/
theorem consecutive_losses_skip_unsettled (rm : RiskManager)
    (l r : List TradeResult) (u : TradeResult) (hu : u.is_win = none)
    (hh : rm.trade_history = l ++ u :: r) :
    rm.count_consecutive_losses =
      RiskManager.count_consecutive_losses
        { rm with trade_history := l ++ r } ∧
    (∀ (rm' : RiskManager) (t : TradeResult) (hist : List TradeResult),
      rm'.trade_history = hist ++ [t] →
      (t.is_win = some false →
        rm'.count_consecutive_losses =
          RiskManager.count_consecutive_losses
            { rm' with trade_history := hist } + 1) ∧
      (t.is_win = some true → rm'.count_consecutive_losses = 0)) := by
  constructor
  · simp only [RiskManager.count_consecutive_losses, hh,
      List.reverse_append, List.reverse_cons]
    have := countLossesBack_skip_unsettled u hu r.reverse
      ((List.reverse l))
    simpa using this
  · intro rm' t hist hh'
    constructor
    · intro hw
      simp [RiskManager.count_consecutive_losses, hh',
        List.reverse_append, RiskManager.countLossesBack, hw]
    · intro hw
      simp [RiskManager.count_consecutive_losses, hh',
        List.reverse_append, RiskManager.countLossesBack, hw]

/-- A settled loss, an unsettled trade and a settled win for the C10
witness. -/
def lossTrade : TradeResult :=
  { trade_id := "t1", symbol := "EURUSD_otc", direction := .call,
    amount := 1, entry_price := 1, exit_price := none, profit_loss := none,
    is_win := some false, timestamp := 0 }

/-- The unsettled trade of the C10 witness. -/
def openTrade : TradeResult :=
  { lossTrade with trade_id := "t2", is_win := none }

/-- C10 witness: a history `[loss, unsettled, loss]` has the same streak
as `[loss, loss]`, and the settled-loss / settled-win walk rules at a
concrete history. -/
theorem consecutive_losses_skip_unsettled_witness :
    RiskManager.count_consecutive_losses
      { config := ⟨1, 5, 2, 3, true⟩,
        trade_history := [lossTrade] ++ openTrade :: [lossTrade] } =
      RiskManager.count_consecutive_losses
        { config := ⟨1, 5, 2, 3, true⟩,
          trade_history := [lossTrade] ++ [lossTrade] } ∧
    (∀ (rm' : RiskManager) (t : TradeResult) (hist : List TradeResult),
      rm'.trade_history = hist ++ [t] →
      (t.is_win = some false →
        rm'.count_consecutive_losses =
          RiskManager.count_consecutive_losses
            { rm' with trade_history := hist } + 1) ∧
      (t.is_win = some true → rm'.count_consecutive_losses = 0)) :=
  consecutive_losses_skip_unsettled
    { config := ⟨1, 5, 2, 3, true⟩,
      trade_history := [lossTrade] ++ openTrade :: [lossTrade] }
    [lossTrade] [lossTrade] openTrade rfl rfl

/-- C8: with `consecutive_loss_limit = 3`, recording three losing trades
of the current calendar day on a fresh manager pauses trading with a
reason naming the loss count (and the 60-minute default pause deadline);
moreover every `record_trade_result` prunes the stored history to trades
of the current calendar day. -/
theorem three_losses_pause (cfg : TradingConfig) (t1 t2 t3 : TradeResult)
    (now : ℚ) (hlim : cfg.consecutive_loss_limit = 3)
    (h1 : t1.is_win = some false) (h2 : t2.is_win = some false)
    (h3 : t3.is_win = some false)
    (hd1 : tsDate t1.timestamp = tsDate now)
    (hd2 : tsDate t2.timestamp = tsDate now)
    (hd3 : tsDate t3.timestamp = tsDate now) :
    ((({ config := cfg } : RiskManager).record_trade_result t1
        now).record_trade_result t2 now).record_trade_result t3 now =
      { config := cfg, trade_history := [t1, t2, t3],
        daily_start_balance := none, is_paused := true,
        pause_reason := some "Consecutive loss limit reached: 3 losses",
        pause_until := some (now + 60 * 60) } ∧
    (∀ (rm : RiskManager) (tr : TradeResult) (n : ℚ),
      (rm.record_trade_result tr n).trade_history =
        (rm.trade_history ++ [tr]).filter
          (fun t => decide (tsDate t.timestamp = tsDate n))) := by
  constructor
  · have s1 : ({ config := cfg } : RiskManager).record_trade_result t1 now =
        { config := cfg, trade_history := [t1] } := by
      simp [RiskManager.record_trade_result, RiskManager.count_consecutive_losses,
        RiskManager.countLossesBack, hd1, h1, hlim]
    have s2 : ({ config := cfg, trade_history := [t1] } :
        RiskManager).record_trade_result t2 now =
        { config := cfg, trade_history := [t1, t2] } := by
      simp [RiskManager.record_trade_result, RiskManager.count_consecutive_losses,
        RiskManager.countLossesBack, hd1, hd2, h1, h2, hlim]
    have s3 : ({ config := cfg, trade_history := [t1, t2] } :
        RiskManager).record_trade_result t3 now =
        { config := cfg, trade_history := [t1, t2, t3],
          daily_start_balance := none, is_paused := true,
          pause_reason := some "Consecutive loss limit reached: 3 losses",
          pause_until := some (now + 60 * 60) } := by
      simp [RiskManager.record_trade_result, RiskManager.count_consecutive_losses,
        RiskManager.countLossesBack, RiskManager.pause_trading,
        hd1, hd2, hd3, h1, h2, h3, hlim]
      rfl
    rw [s1, s2, s3]
  · intro rm tr n
    simp only [RiskManager.record_trade_result]
    split <;> simp [RiskManager.pause_trading]

/-- C8 witness: three concrete same-day losses on a manager with loss
limit 3. -/
theorem three_losses_pause_witness :
    ((({ config := ⟨1, 5, 2, 3, true⟩ } : RiskManager).record_trade_result
        lossTrade 0).record_trade_result lossTrade
        0).record_trade_result lossTrade 0 =
      { config := ⟨1, 5, 2, 3, true⟩,
        trade_history := [lossTrade, lossTrade, lossTrade],
        daily_start_balance := none, is_paused := true,
        pause_reason := some "Consecutive loss limit reached: 3 losses",
        pause_until := some (0 + 60 * 60) } ∧
    (∀ (rm : RiskManager) (tr : TradeResult) (n : ℚ),
      (rm.record_trade_result tr n).trade_history =
        (rm.trade_history ++ [tr]).filter
          (fun t => decide (tsDate t.timestamp = tsDate n))) :=
  three_losses_pause ⟨1, 5, 2, 3, true⟩ lossTrade lossTrade lossTrade 0
    rfl rfl rfl rfl rfl rfl rfl

/-- C4 witness: the lifecycle at a concrete breaker and concrete clock
readings. -/
theorem circuit_breaker_trip_and_recover_witness :
    (({ failure_threshold := 1 } : CircuitBreaker).record_failure 5).state =
      .«open» ∧
    (({ failure_threshold := 1 } : CircuitBreaker).record_failure
        5).last_failure_time = some 5 ∧
    ((60 : ℚ) - 5 ≤ ({ failure_threshold := 1 } : CircuitBreaker).timeout →
      (({ failure_threshold := 1 } : CircuitBreaker).record_failure
          5).can_execute 60 =
        (false, ({ failure_threshold := 1 } : CircuitBreaker).record_failure
          5)) ∧
    (({ failure_threshold := 1 } : CircuitBreaker).timeout < (66 : ℚ) - 5 →
      ((({ failure_threshold := 1 } : CircuitBreaker).record_failure
          5).can_execute 66).1 = true ∧
      ((({ failure_threshold := 1 } : CircuitBreaker).record_failure
          5).can_execute 66).2.state = .halfOpen ∧
      (((({ failure_threshold := 1 } : CircuitBreaker).record_failure
          5).can_execute 66).2.record_success).state = .closed ∧
      (((({ failure_threshold := 1 } : CircuitBreaker).record_failure
          5).can_execute 66).2.record_success).failure_count = 0) :=
  circuit_breaker_trip_and_recover { failure_threshold := 1 } 5 60 66 rfl rfl

end CurrencyBot
